import Mathlib

/-!
Shallow embedding of the mcp-cli interactive session controller (main.go):
the Bubble Tea model, update loop, argument coercion and rendering, together
with theorems checking the specification's claims about them.

External library code (the bubbles `list`, `textinput` and `viewport`
widgets, `strconv`, and the MCP transport) is modeled at the granularity the
controller observes.  A Go run-time error (index out of range, nil
dereference, integer division by zero) is modeled as `none`.
-/

namespace McpCli

/-! ### Keys and widget models -/

/-- The key presses the controller distinguishes (`tea.KeyMsg`). -/
inductive Key where
  | tab
  | esc
  | ctrlC
  | enter
  | up
  | down
  | char (c : Char)
  deriving DecidableEq

/-- Model of `tea.KeyMsg.String()` for the keys modeled here. -/
def keyString : Key → String
  | .tab => "tab"
  | .esc => "esc"
  | .ctrlC => "ctrl+c"
  | .enter => "enter"
  | .up => "up"
  | .down => "down"
  | .char c => String.singleton c

/-- Model of `bubbles/list.Model`: the items and the cursor index. -/
structure ListModel (α : Type) where
  items : List α
  index : Nat
  deriving DecidableEq

/-- Cursor movement of `list.Model.Update`: up/k and down/j move the cursor,
clamped to the item range; other keys leave the model unchanged. -/
def ListModel.update {α : Type} (l : ListModel α) (k : Key) : ListModel α :=
  match k with
  | .up => { l with index := l.index - 1 }
  | .char 'k' => { l with index := l.index - 1 }
  | .down => { l with index := min (l.index + 1) (l.items.length - 1) }
  | .char 'j' => { l with index := min (l.index + 1) (l.items.length - 1) }
  | _ => l

/-- Model of `list.Model.SelectedItem`: the item under the cursor, if any. -/
def ListModel.selectedItem {α : Type} (l : ListModel α) : Option α :=
  l.items.get? l.index

/-- Model of `bubbles/textinput.Model`: placeholder, current text and focus flag. -/
structure TextInput where
  placeholder : String
  value : String
  focused : Bool
  deriving DecidableEq

def TextInput.new : TextInput :=
  { placeholder := "", value := "", focused := false }

/-- Model of `textinput.Model.Focus`. -/
def TextInput.focus (ti : TextInput) : TextInput :=
  { ti with focused := true }

/-- Model of `textinput.Model.Blur`. -/
def TextInput.blur (ti : TextInput) : TextInput :=
  { ti with focused := false }

/-- Model of `textinput.Model.Update`: a focused input appends a printable character
to its value, up to the 256-character limit the controller sets; an
unfocused input and the other keys leave the input unchanged. -/
def TextInput.update (ti : TextInput) (k : Key) : TextInput :=
  if ti.focused then
    match k with
    | .char c => if ti.value.length < 256 then { ti with value := ti.value.push c } else ti
    | _ => ti
  else ti

/-- Model of `bubbles/viewport.Model`: content lines, size and vertical offset. -/
structure Viewport where
  lines : List String
  width : Nat
  height : Nat
  yOffset : Nat
  deriving DecidableEq

/-- Model of `viewport.Model.SetContent`. -/
def Viewport.setContent (vp : Viewport) (lines : List String) : Viewport :=
  { vp with lines := lines }

/-- Model of `viewport.Model.GotoBottom`. -/
def Viewport.gotoBottom (vp : Viewport) : Viewport :=
  { vp with yOffset := vp.lines.length - vp.height }

/-- Model of `viewport.Model.Update`: up/k and down/j scroll by one line; other keys
leave the viewport unchanged. -/
def Viewport.update (vp : Viewport) (k : Key) : Viewport :=
  match k with
  | .up => { vp with yOffset := vp.yOffset - 1 }
  | .char 'k' => { vp with yOffset := vp.yOffset - 1 }
  | .down => { vp with yOffset := min (vp.yOffset + 1) (vp.lines.length - vp.height) }
  | .char 'j' => { vp with yOffset := min (vp.yOffset + 1) (vp.lines.length - vp.height) }
  | _ => vp

/-! ### Catalog data -/

/-- A property of a tool's input schema (`jsonschema.Schema` as consulted by
the controller): the declared type string and the description. -/
structure SchemaProp where
  type : String
  description : String
  deriving DecidableEq

/-- A tool's input schema: the `Properties` map, modeled as an association
list from property name to property. -/
structure Schema where
  properties : List (String × SchemaProp)
  deriving DecidableEq

/-- Model of `mcp.Tool`.  `inputSchema` is a nullable pointer in Go, hence `Option`. -/
structure Tool where
  name : String
  description : String
  inputSchema : Option Schema
  deriving DecidableEq

/-- Model of `mcp.Resource`. -/
structure Resource where
  name : String
  description : String
  uri : String
  deriving DecidableEq

/-- Model of `mcp.Prompt`. -/
structure Prompt where
  name : String
  description : String
  deriving DecidableEq

/-! ### Controller state -/

/-- Embedding of `viewState` (main.go:189-197). -/
inductive viewState where
  | toolSelectionView
  | argumentInputView
  | resourceListView
  | resourceDetailView
  | promptListView
  deriving DecidableEq

/-- Embedding of `focusedPanel` (main.go:199-204). -/
inductive focusedPanel where
  | mainPanelFocus
  | debugPanelFocus
  deriving DecidableEq

/-- Embedding of `AppModel` (main.go:206-229).  `ctx` and `session` are transport handles
and are not part of the state; `width`/`height` are kept. -/
structure AppModel where
  state : viewState
  panelFocus : focusedPanel
  toolList : ListModel Tool
  resourceList : ListModel Resource
  promptList : ListModel Prompt
  argInputs : List TextInput
  argOrder : List String
  argFocus : Nat
  selectedTool : Option Tool
  tools : List Tool
  resources : List Resource
  prompts : List Prompt
  selectedResource : Option Resource
  result : String
  resourceResult : String
  err : Option String
  log : List String
  width : Nat
  height : Nat
  debugViewport : Viewport
  deriving DecidableEq

/-- Embedding of `initialModel` (main.go:231-332) on the successful catalog-fetch path. -/
def initialModel (tools : List Tool) (resources : List Resource)
    (prompts : List Prompt) : AppModel :=
  { state := .toolSelectionView
    panelFocus := .mainPanelFocus
    toolList := { items := tools, index := 0 }
    resourceList := { items := resources, index := 0 }
    promptList := { items := prompts, index := 0 }
    argInputs := []
    argOrder := []
    argFocus := 0
    selectedTool := none
    tools := tools
    resources := resources
    prompts := prompts
    selectedResource := none
    result := ""
    resourceResult := ""
    err := none
    log := []
    width := 0
    height := 0
    debugViewport := { lines := ["Debug log will appear here..."], width := 1, height := 1, yOffset := 0 } }

/-- Embedding of `AppModel.logf` (main.go:361-365): append a line to the transcript,
refresh the debug viewport content and snap it to the bottom. -/
def AppModel.logf (m : AppModel) (line : String) : AppModel :=
  let log := m.log ++ [line]
  { m with log := log
           debugViewport := (m.debugViewport.setContent log).gotoBottom }

/-! ### Messages, commands and coercion -/

/-- JSON values placed into the call payload.  `num s` stands for the
float64 that `strconv.ParseFloat` parsed from the text `s`. -/
inductive JsonValue where
  | str (s : String)
  | num (raw : String)
  | int (n : Int)
  | bool (b : Bool)
  deriving DecidableEq

/-- Commands handed to the Bubble Tea runtime.  The Go call commands are
closures over the model pointer; the data they read when they run (selected
tool or resource, field order and values) is recorded in the command, and
the payload itself is computed by `callToolJob` when the job executes. -/
inductive Cmd where
  | quit
  | callTool (tool : Option Tool) (argOrder : List String) (argInputs : List TextInput)
  | readResource (resource : Option Resource)
  deriving DecidableEq

/-- The messages `Update` consumes. -/
inductive Msg where
  | windowSize (w h : Nat)
  | toolResult (result : String) (err : Option String)
  | resourceResult (result : String) (err : Option String)
  | key (k : Key)
  deriving DecidableEq

/-- Model of `strconv.ParseBool`: exactly these twelve strings parse. -/
def goParseBool : String → Option Bool
  | "1" => some true
  | "t" => some true
  | "T" => some true
  | "TRUE" => some true
  | "true" => some true
  | "True" => some true
  | "0" => some false
  | "f" => some false
  | "F" => some false
  | "FALSE" => some false
  | "false" => some false
  | "False" => some false
  | _ => none

/-- Value of a nonempty all-digit character run. -/
def digitsVal (cs : List Char) : Option Nat :=
  if cs.isEmpty then none
  else if cs.all Char.isDigit then
    some (cs.foldl (fun a c => a * 10 + (c.toNat - 48)) 0)
  else none

/-- Model of `strconv.Atoi`: optional sign, decimal digits, 64-bit range check. -/
def goAtoi (s : String) : Option Int :=
  let signed : Int × List Char :=
    match s.data with
    | '+' :: cs => (1, cs)
    | '-' :: cs => (-1, cs)
    | cs => (1, cs)
  match digitsVal signed.2 with
  | none => none
  | some n =>
    let v : Int := signed.1 * (n : Int)
    if -(2 ^ 63) ≤ v ∧ v ≤ 2 ^ 63 - 1 then some v else none

/-- Nonempty run of decimal digits. -/
def allDigits (cs : List Char) : Bool :=
  !cs.isEmpty && cs.all Char.isDigit

/-- A float exponent part: optional sign then digits. -/
def expPartOk (cs : List Char) : Bool :=
  match cs with
  | '+' :: rest => allDigits rest
  | '-' :: rest => allDigits rest
  | rest => allDigits rest

/-- Decimal float mantissa: at most one decimal point, at least one digit,
nothing else. -/
def decMantissaOk (cs : List Char) : Bool :=
  cs.count '.' ≤ 1 && cs.any Char.isDigit && cs.all (fun c => c.isDigit || c = '.')

/-- Unsigned decimal float literal: mantissa with optional e-exponent. -/
def decFloatOk (cs : List Char) : Bool :=
  match (cs.map Char.toLower).splitOn 'e' with
  | [man] => decMantissaOk man
  | [man, ex] => decMantissaOk man && expPartOk ex
  | _ => false

def isHexDigit (c : Char) : Bool :=
  c.isDigit || ('a' ≤ c && c ≤ 'f') || ('A' ≤ c && c ≤ 'F')

/-- Unsigned hexadecimal float literal: `0x` mantissa with mandatory
p-exponent. -/
def hexFloatOk (cs : List Char) : Bool :=
  match cs with
  | '0' :: x :: rest =>
    (x = 'x' || x = 'X') &&
    (match (rest.map Char.toLower).splitOn 'p' with
     | [man, ex] =>
       man.count '.' ≤ 1 && man.any isHexDigit &&
       man.all (fun c => isHexDigit c || c = '.') && expPartOk ex
     | _ => false)
  | _ => false

/-- Acceptance of `strconv.ParseFloat`: optionally signed decimal or
hexadecimal float literal, optionally signed infinity, or unsigned NaN
(digit-separating underscores are not modeled). -/
def parseFloatOk (s : String) : Bool :=
  let cs := s.data
  let body : List Char :=
    match cs with
    | '+' :: rest => rest
    | '-' :: rest => rest
    | rest => rest
  let isSigned : Bool :=
    match cs with
    | '+' :: _ => true
    | '-' :: _ => true
    | _ => false
  let lbody := body.map Char.toLower
  if lbody = "inf".data || lbody = "infinity".data then true
  else if !isSigned && lbody = "nan".data then true
  else hexFloatOk body || decFloatOk body

/-- The argument-building loop of `callToolCmd` (main.go:662-705), mirroring
the Go control flow including its `continue` statements: for a
number/integer/boolean property whose input text is empty, the `continue`
re-enters the loop before the `args[name] = finalValue` line runs, so no
entry is added for that parameter.  Returns the payload entries in
iteration order (the Go `args` map keyed by name) together with the
coercion-warning lines logged.  `none` models the nil dereference of
`m.selectedTool.InputSchema` and the out-of-range index into `m.argInputs`.
The `strconv` error detail inside a warning line is elided. -/
def buildArgs (schema : Option Schema) :
    List String → List TextInput → Option (List (String × JsonValue) × List String)
  | [], _ => some ([], [])
  | _ :: _, [] => none
  | name :: names, ti :: tis =>
    match schema with
    | none => none
    | some sch =>
      match buildArgs schema names tis with
      | none => none
      | some (args, warns) =>
        let valueStr := ti.value
        let step : Option (String × JsonValue) × Option String :=
          match sch.properties.lookup name with
          | none => (some (name, .str valueStr), none)
          | some prop =>
            if prop.type = "number" then
              if valueStr = "" then (none, none)
              else if parseFloatOk valueStr then (some (name, .num valueStr), none)
              else (some (name, .str valueStr),
                    some ("Error converting arg '" ++ name ++ "' to number"))
            else if prop.type = "integer" then
              if valueStr = "" then (none, none)
              else
                match goAtoi valueStr with
                | some n => (some (name, .int n), none)
                | none => (some (name, .str valueStr),
                           some ("Error converting arg '" ++ name ++ "' to integer"))
            else if prop.type = "boolean" then
              if valueStr = "" then (none, none)
              else
                match goParseBool valueStr with
                | some b => (some (name, .bool b), none)
                | none => (some (name, .str valueStr),
                           some ("Error converting arg '" ++ name ++ "' to boolean"))
            else (some (name, .str valueStr), none)
        some (step.1.toList ++ args, step.2.toList ++ warns)

/-- Lexicographic order on character lists by code point (for valid Unicode
this coincides with Go's byte-wise string order, since UTF-8 is
order-preserving). -/
def charListLE : List Char → List Char → Bool
  | [], _ => true
  | _ :: _, [] => false
  | a :: as, b :: bs =>
    if a.toNat < b.toNat then true
    else if b.toNat < a.toNat then false
    else charListLE as bs

/-- Go's `<=` on strings. -/
def strLE (a b : String) : Bool :=
  charListLE a.data b.data

/-- Model of `sort.Strings`: ascending lexicographic sort of the names (modeled by
insertion sort; the sorted result is the same for every correct sort). -/
def sortStrings (l : List String) : List String :=
  l.insertionSort (fun a b => strLE a b = true)

/-- Embedding of `callTool` (main.go:753-755): dispatch the asynchronous call command
for the selected tool; the model itself is returned unchanged. -/
def callTool (m : AppModel) : AppModel × List Cmd :=
  (m, [Cmd.callTool m.selectedTool m.argOrder m.argInputs])

/-- Body of the `callToolCmd` closure (main.go:660-716) up to the remote
call: the tool name and argument payload it sends, with the
coercion-warning lines it logs.  `none` models the nil dereference of
`m.selectedTool` / `InputSchema` or an out-of-range index into the field
slice, which in Go crashes inside the command goroutine. -/
def callToolJob (tool : Option Tool) (argOrder : List String)
    (argInputs : List TextInput) :
    Option (String × List (String × JsonValue) × List String) :=
  match tool with
  | none => none
  | some t =>
    match buildArgs t.inputSchema argOrder argInputs with
    | none => none
    | some (args, warns) => some (t.name, args, warns)

/-! ### The update loop -/

/-- Embedding of `m.argInputs[0].Focus()` (main.go:492): focus the first built field. -/
def focusFirst : List TextInput → List TextInput
  | [] => []
  | ti :: tis => ti.focus :: tis

/-- Embedding of `updateToolSelectionView` (main.go:455-503). -/
def updateToolSelectionView (verbose : Bool) (m : AppModel) (k : Key) :
    Option (AppModel × List Cmd) :=
  let m := { m with toolList := m.toolList.update k }
  if keyString k = "r" then
    some ({ m with state := .resourceListView }, [])
  else if keyString k = "p" then
    some ({ m with state := .promptListView }, [])
  else if keyString k = "enter" then
    match m.toolList.selectedItem with
    | none => none
    | some tool =>
      let m := { m with selectedTool := some tool }
      let noArgs : AppModel → Option (AppModel × List Cmd) := fun m =>
        some (callTool (if verbose then m.logf "No arguments needed, calling tool directly" else m))
      match tool.inputSchema with
      | some sch =>
        if sch.properties.length > 0 then
          let m := if verbose then m.logf "State change: toolSelectionView -> argumentInputView" else m
          let argOrder := sortStrings (sch.properties.map Prod.fst)
          let argInputs := argOrder.map (fun name =>
            let prop := (sch.properties.lookup name).getD { type := "", description := "" }
            ({ placeholder := prop.description, value := "", focused := true } : TextInput))
          let argInputs := focusFirst argInputs
          some ({ m with state := .argumentInputView
                         argOrder := argOrder
                         argInputs := argInputs }, [])
        else noArgs m
      | none => noArgs m
  else some (m, [])

/-- Embedding of `updatePromptListView` (main.go:505-521). -/
def updatePromptListView (m : AppModel) (k : Key) : Option (AppModel × List Cmd) :=
  let m := { m with promptList := m.promptList.update k }
  if keyString k = "t" then
    some ({ m with state := .toolSelectionView }, [])
  else if keyString k = "r" then
    some ({ m with state := .resourceListView }, [])
  else some (m, [])

/-- Embedding of `updateResourceListView` (main.go:523-544). -/
def updateResourceListView (m : AppModel) (k : Key) : Option (AppModel × List Cmd) :=
  let m := { m with resourceList := m.resourceList.update k }
  if keyString k = "t" then
    some ({ m with state := .toolSelectionView }, [])
  else if keyString k = "p" then
    some ({ m with state := .promptListView }, [])
  else if keyString k = "enter" then
    match m.resourceList.selectedItem with
    | none => none
    | some r =>
      some ({ m with selectedResource := some r, state := .resourceDetailView },
            [Cmd.readResource (some r)])
  else some (m, [])

/-- Embedding of `updateArgumentInputView` (main.go:546-585).  The Tab branch is
unreachable in the running program (Tab is intercepted by `Update`'s global
bindings first) but is translated faithfully. -/
def updateArgumentInputView (verbose : Bool) (m : AppModel) (k : Key) :
    Option (AppModel × List Cmd) :=
  if k = .enter then
    if (m.argFocus : Int) = (m.argInputs.length : Int) - 1 then
      some (callTool (if verbose then m.logf "Last argument input, calling tool" else m))
    else
      let argFocus := m.argFocus + 1
      let argInputs := m.argInputs.mapIdx (fun i ti =>
        if i = argFocus then ti.focus else ti.blur)
      some ({ m with argFocus := argFocus, argInputs := argInputs }, [])
  else if k = .tab then
    if m.argInputs.length = 0 then none
    else
      let argFocus := (m.argFocus + 1) % m.argInputs.length
      let argInputs := m.argInputs.mapIdx (fun i ti =>
        if i = argFocus then ti.focus else ti.blur)
      some ({ m with argFocus := argFocus, argInputs := argInputs }, [])
  else
    match m.argInputs.get? m.argFocus with
    | none => none
    | some ti =>
      some ({ m with argInputs := m.argInputs.set m.argFocus (ti.update k) }, [])

/-- Embedding of `Update` (main.go:371-453).  `verbose` models the package-level flag. -/
def Update (verbose : Bool) (m : AppModel) (msg : Msg) :
    Option (AppModel × List Cmd) :=
  match msg with
  | .windowSize w h =>
    let m := { m with width := w, height := h }
    let debugPanelWidth := m.width / 3
    some ({ m with debugViewport :=
              { m.debugViewport with width := debugPanelWidth - 2, height := m.height - 2 } }, [])
  | .toolResult res e =>
    match e with
    | some e => some ({ m with err := some e }, [])
    | none =>
      let m := if verbose then m.logf "Tool result received" else m
      let m := m.logf ("Result:\n========\n" ++ res)
      some ({ m with result := res }, [])
  | .resourceResult res e =>
    match e with
    | some e => some ({ m with err := some e }, [])
    | none =>
      let m := if verbose then m.logf "Resource result received" else m
      some ({ m with resourceResult := res }, [])
  | .key k =>
    let m := if verbose then m.logf ("Key pressed: " ++ keyString k) else m
    match k with
    | .tab =>
      let fp := if m.panelFocus = .mainPanelFocus
                then focusedPanel.debugPanelFocus else focusedPanel.mainPanelFocus
      some ({ m with panelFocus := fp }, [])
    | .esc =>
      let st := if m.state = .resourceDetailView
                then viewState.resourceListView else viewState.toolSelectionView
      some ({ m with state := st }, [])
    | .ctrlC => some (m, [Cmd.quit])
    | _ =>
      if m.panelFocus = .debugPanelFocus then
        some ({ m with debugViewport := m.debugViewport.update k }, [])
      else
        match m.state with
        | .toolSelectionView => updateToolSelectionView verbose m k
        | .resourceListView => updateResourceListView m k
        | .promptListView => updatePromptListView m k
        | .argumentInputView => updateArgumentInputView verbose m k
        | .resourceDetailView => some (m, [])

/-- Run a sequence of messages through `Update`, threading run-time errors
and discarding commands (their results re-enter as explicit messages). -/
def run (verbose : Bool) (m : AppModel) : List Msg → Option AppModel
  | [] => some m
  | msg :: msgs =>
    match Update verbose m msg with
    | none => none
    | some (m', _) => run verbose m' msgs

/-! ### Rendering -/

/-- Stand-in for `list.Model.View`: the item titles joined by newlines
(widget rendering is external library code). -/
def listViewText {α : Type} (title : α → String) (l : ListModel α) : String :=
  String.intercalate "\n" (l.items.map title)

/-- The main-pane content of `View` (main.go:595-623). -/
def mainContent (m : AppModel) : Option String :=
  match m.state with
  | .toolSelectionView => some (listViewText Tool.name m.toolList)
  | .resourceListView => some (listViewText Resource.name m.resourceList)
  | .promptListView => some (listViewText Prompt.name m.promptList)
  | .resourceDetailView =>
    match m.selectedResource with
    | none => none
    | some r =>
      some ("Details for " ++ r.name ++ ":\n\n" ++ m.resourceResult ++
            "\n\nPress Esc to go back to resource list.")
  | .argumentInputView =>
    match m.selectedTool with
    | none => none
    | some t =>
      let fields := (List.range m.argOrder.length).mapM (fun i =>
        match m.argOrder.get? i, m.argInputs.get? i with
        | some name, some ti => some (name ++ "\n" ++ ti.value ++ "\n\n")
        | _, _ => none)
      match fields with
      | none => none
      | some fs =>
        some ("Enter arguments for " ++ t.name ++ ":\n\n" ++ String.join fs ++
              "\nPress Enter to submit, Tab to switch fields, Esc to go back to tool selection.")

/-- The full-screen error frame of `View` (main.go:588-589), verbatim. -/
def errorScreen (e : String) : String :=
  "Error: " ++ e ++ "\n\nPress ctrl+c to quit."

/-- Embedding of `View` (main.go:587-645).  The lipgloss borders and sizing are
abstracted: the frame is the main-pane content followed by the debug-pane
lines.  The error branch is verbatim: when `err` is set, nothing but the
error text and the quit prompt is rendered. -/
def View (m : AppModel) : Option String :=
  match m.err with
  | some e => some (errorScreen e)
  | none =>
    match mainContent m with
    | none => none
    | some mc => some (mc ++ "\n" ++ String.intercalate "\n" m.debugViewport.lines)

/-- A tool has an empty parameter schema when its schema pointer is nil or
its `Properties` map is empty (the `else` branch of main.go:471). -/
def hasNoParams (t : Tool) : Bool :=
  match t.inputSchema with
  | none => true
  | some sch => sch.properties.isEmpty

/-- Number of fields whose focus flag is set. -/
def focusedCount (l : List TextInput) : Nat :=
  (l.filter (·.focused)).length

/-! ### Concrete fixtures for witnesses and counterexamples -/

/-- A `number`-typed schema property. -/
def numProp : SchemaProp := { type := "number", description := "" }

/-- A `boolean`-typed schema property. -/
def boolProp : SchemaProp := { type := "boolean", description := "" }

/-- An `integer`-typed schema property. -/
def intProp : SchemaProp := { type := "integer", description := "" }

/-- A two-parameter tool, parameters declared out of lexicographic order. -/
def addTool : Tool :=
  { name := "add", description := "",
    inputSchema := some { properties := [("b", numProp), ("a", numProp)] } }

/-- A zero-parameter tool (nil input schema). -/
def pingTool : Tool :=
  { name := "ping", description := "", inputSchema := none }

/-- A one-parameter tool. -/
def oneTool : Tool :=
  { name := "one", description := "",
    inputSchema := some { properties := [("z", numProp)] } }

/-- A sample resource. -/
def sampleResource : Resource :=
  { name := "doc", description := "", uri := "file:doc" }

/-- A text input holding the given value, as the form leaves it. -/
def inputWith (v : String) : TextInput :=
  { placeholder := "", value := v, focused := true }

/-! ### Order lemmas for the name sort -/

theorem charEq_of_toNat_eq {a b : Char} (h : a.toNat = b.toNat) : a = b := by
  have h2 := congrArg Char.ofNat h
  rwa [Char.ofNat_toNat, Char.ofNat_toNat] at h2

theorem charListLE_total : ∀ as bs, charListLE as bs = true ∨ charListLE bs as = true := by
  intro as
  induction as with
  | nil => intro bs; left; cases bs <;> rfl
  | cons a as ih =>
    intro bs
    cases bs with
    | nil => right; rfl
    | cons b bs =>
      rcases Nat.lt_trichotomy a.toNat b.toNat with h | h | h
      · left; simp [charListLE, h]
      · rcases ih bs with h1 | h1
        · left; simp [charListLE, h, Nat.lt_irrefl, h1]
        · right; simp [charListLE, h.symm, Nat.lt_irrefl, h1]
      · right; simp [charListLE, h]

theorem charListLE_trans :
    ∀ as bs cs, charListLE as bs = true → charListLE bs cs = true →
      charListLE as cs = true := by
  intro as
  induction as with
  | nil => intro bs cs _ _; cases cs <;> rfl
  | cons a as ih =>
    intro bs cs h1 h2
    cases bs with
    | nil => simp [charListLE] at h1
    | cons b bs =>
      cases cs with
      | nil => simp [charListLE] at h2
      | cons c cs =>
        rcases Nat.lt_trichotomy a.toNat b.toNat with hab | hab | hab
        · rcases Nat.lt_trichotomy b.toNat c.toNat with hbc | hbc | hbc
          · simp [charListLE, Nat.lt_trans hab hbc]
          · simp [charListLE, hbc ▸ hab]
          · simp [charListLE, Nat.lt_asymm hbc, hbc] at h2
        · rcases Nat.lt_trichotomy b.toNat c.toNat with hbc | hbc | hbc
          · simp [charListLE, hab ▸ hbc]
          · have h1' : charListLE as bs = true := by
              simpa [charListLE, hab, Nat.lt_irrefl] using h1
            have h2' : charListLE bs cs = true := by
              simpa [charListLE, hbc, Nat.lt_irrefl] using h2
            simp [charListLE, hab.trans hbc, Nat.lt_irrefl, ih bs cs h1' h2']
          · simp [charListLE, Nat.lt_asymm hbc, hbc] at h2
        · simp [charListLE, Nat.lt_asymm hab, hab] at h1

theorem charListLE_antisymm :
    ∀ as bs, charListLE as bs = true → charListLE bs as = true → as = bs := by
  intro as
  induction as with
  | nil => intro bs _ h2; cases bs with
    | nil => rfl
    | cons b bs => simp [charListLE] at h2
  | cons a as ih =>
    intro bs h1 h2
    cases bs with
    | nil => simp [charListLE] at h1
    | cons b bs =>
      rcases Nat.lt_trichotomy a.toNat b.toNat with hab | hab | hab
      · simp [charListLE, Nat.lt_asymm hab, hab] at h2
      · have h1' : charListLE as bs = true := by
          simpa [charListLE, hab, Nat.lt_irrefl] using h1
        have h2' : charListLE bs as = true := by
          simpa [charListLE, hab, Nat.lt_irrefl] using h2
        rw [charEq_of_toNat_eq hab, ih bs h1' h2']
      · simp [charListLE, Nat.lt_asymm hab, hab] at h1

theorem strLE_total (a b : String) : strLE a b = true ∨ strLE b a = true :=
  charListLE_total a.data b.data

theorem strLE_trans {a b c : String} (h1 : strLE a b = true) (h2 : strLE b c = true) :
    strLE a c = true :=
  charListLE_trans a.data b.data c.data h1 h2

theorem strLE_antisymm {a b : String} (h1 : strLE a b = true) (h2 : strLE b a = true) :
    a = b := by
  have h := charListLE_antisymm a.data b.data h1 h2
  cases a; cases b; exact congrArg String.mk h

instance : IsTotal String (fun a b => strLE a b = true) := ⟨strLE_total⟩

instance : IsTrans String (fun a b => strLE a b = true) := ⟨fun _ _ _ => strLE_trans⟩

instance : IsAntisymm String (fun a b => strLE a b = true) := ⟨fun _ _ => strLE_antisymm⟩

theorem sortStrings_sorted (l : List String) :
    List.Sorted (fun a b => strLE a b = true) (sortStrings l) :=
  List.sorted_insertionSort _ l

theorem sortStrings_perm (l : List String) : (sortStrings l).Perm l :=
  List.perm_insertionSort _ l

theorem sortStrings_length (l : List String) : (sortStrings l).length = l.length :=
  (sortStrings_perm l).length_eq

theorem sortStrings_eq_of_perm {l₁ l₂ : List String} (h : l₁.Perm l₂) :
    sortStrings l₁ = sortStrings l₂ :=
  List.eq_of_perm_of_sorted
    ((sortStrings_perm l₁).trans (h.trans (sortStrings_perm l₂).symm))
    (sortStrings_sorted l₁) (sortStrings_sorted l₂)

/-! ### Projection lemmas for `logf` -/

theorem logf_state (m : AppModel) (s : String) : (m.logf s).state = m.state := rfl
theorem logf_panelFocus (m : AppModel) (s : String) : (m.logf s).panelFocus = m.panelFocus := rfl
theorem logf_argOrder (m : AppModel) (s : String) : (m.logf s).argOrder = m.argOrder := rfl
theorem logf_argInputs (m : AppModel) (s : String) : (m.logf s).argInputs = m.argInputs := rfl
theorem logf_argFocus (m : AppModel) (s : String) : (m.logf s).argFocus = m.argFocus := rfl
theorem logf_err (m : AppModel) (s : String) : (m.logf s).err = m.err := rfl
theorem logf_result (m : AppModel) (s : String) : (m.logf s).result = m.result := rfl
theorem logf_resourceResult (m : AppModel) (s : String) :
    (m.logf s).resourceResult = m.resourceResult := rfl
theorem logf_toolList (m : AppModel) (s : String) : (m.logf s).toolList = m.toolList := rfl
theorem logf_resourceList (m : AppModel) (s : String) :
    (m.logf s).resourceList = m.resourceList := rfl
theorem logf_promptList (m : AppModel) (s : String) : (m.logf s).promptList = m.promptList := rfl
theorem logf_selectedTool (m : AppModel) (s : String) :
    (m.logf s).selectedTool = m.selectedTool := rfl
theorem logf_selectedResource (m : AppModel) (s : String) :
    (m.logf s).selectedResource = m.selectedResource := rfl

/-! ### Step-preservation lemmas -/

theorem updateToolSelectionView_err (verbose : Bool) (m : AppModel) (k : Key)
    (m' : AppModel) (cs : List Cmd)
    (h : updateToolSelectionView verbose m k = some (m', cs)) : m'.err = m.err := by
  simp only [updateToolSelectionView] at h
  repeat' split at h
  all_goals
    first
    | exact Option.noConfusion h
    | (injection h with h1; injection h1 with h2 h3; subst h2; cases verbose <;> rfl)

theorem updatePromptListView_err (m : AppModel) (k : Key) (m' : AppModel) (cs : List Cmd)
    (h : updatePromptListView m k = some (m', cs)) : m'.err = m.err := by
  simp only [updatePromptListView] at h
  repeat' split at h
  all_goals
    first
    | exact Option.noConfusion h
    | (injection h with h1; injection h1 with h2 h3; subst h2; rfl)

theorem updateResourceListView_err (m : AppModel) (k : Key) (m' : AppModel) (cs : List Cmd)
    (h : updateResourceListView m k = some (m', cs)) : m'.err = m.err := by
  simp only [updateResourceListView] at h
  repeat' split at h
  all_goals
    first
    | exact Option.noConfusion h
    | (injection h with h1; injection h1 with h2 h3; subst h2; rfl)

theorem updateArgumentInputView_err (verbose : Bool) (m : AppModel) (k : Key)
    (m' : AppModel) (cs : List Cmd)
    (h : updateArgumentInputView verbose m k = some (m', cs)) : m'.err = m.err := by
  simp only [updateArgumentInputView] at h
  repeat' split at h
  all_goals
    first
    | exact Option.noConfusion h
    | (injection h with h1; injection h1 with h2 h3; subst h2; cases verbose <;> rfl)

/-- Once the model's error field is set, no step ever clears it. -/
theorem Update_err_persists (verbose : Bool) (m : AppModel) (msg : Msg) (m' : AppModel)
    (cs : List Cmd) (h : Update verbose m msg = some (m', cs)) :
    m'.err = m.err ∨ ∃ e, m'.err = some e := by
  cases msg with
  | windowSize w hh =>
    injection h with h1
    injection h1 with h2 h3
    subst h2
    left; rfl
  | toolResult res e =>
    cases e with
    | none =>
      simp only [Update] at h
      injection h with h1
      injection h1 with h2 h3
      subst h2
      left; cases verbose <;> rfl
    | some e =>
      simp only [Update] at h
      injection h with h1
      injection h1 with h2 h3
      subst h2
      right; exact ⟨e, rfl⟩
  | resourceResult res e =>
    cases e with
    | none =>
      simp only [Update] at h
      injection h with h1
      injection h1 with h2 h3
      subst h2
      left; cases verbose <;> rfl
    | some e =>
      simp only [Update] at h
      injection h with h1
      injection h1 with h2 h3
      subst h2
      right; exact ⟨e, rfl⟩
  | key k =>
    left
    cases k with
    | tab =>
      simp only [Update] at h
      injection h with h1
      injection h1 with h2 h3
      subst h2
      cases verbose <;> rfl
    | esc =>
      simp only [Update] at h
      injection h with h1
      injection h1 with h2 h3
      subst h2
      cases verbose <;> rfl
    | ctrlC =>
      simp only [Update] at h
      injection h with h1
      injection h1 with h2 h3
      subst h2
      cases verbose <;> rfl
    | enter =>
      simp only [Update] at h
      split at h
      · split at h
        · injection h with h1
          injection h1 with h2 h3
          subst h2
          rfl
        · split at h
          · exact (updateToolSelectionView_err _ _ _ _ _ h).trans rfl
          · exact (updateResourceListView_err _ _ _ _ h).trans rfl
          · exact (updatePromptListView_err _ _ _ _ h).trans rfl
          · exact (updateArgumentInputView_err _ _ _ _ _ h).trans rfl
          · injection h with h1
            injection h1 with h2 h3
            subst h2
            rfl
      · split at h
        · injection h with h1
          injection h1 with h2 h3
          subst h2
          rfl
        · split at h
          · exact (updateToolSelectionView_err _ _ _ _ _ h).trans rfl
          · exact (updateResourceListView_err _ _ _ _ h).trans rfl
          · exact (updatePromptListView_err _ _ _ _ h).trans rfl
          · exact (updateArgumentInputView_err _ _ _ _ _ h).trans rfl
          · injection h with h1
            injection h1 with h2 h3
            subst h2
            rfl
    | up =>
      simp only [Update] at h
      split at h
      · split at h
        · injection h with h1
          injection h1 with h2 h3
          subst h2
          rfl
        · split at h
          · exact (updateToolSelectionView_err _ _ _ _ _ h).trans rfl
          · exact (updateResourceListView_err _ _ _ _ h).trans rfl
          · exact (updatePromptListView_err _ _ _ _ h).trans rfl
          · exact (updateArgumentInputView_err _ _ _ _ _ h).trans rfl
          · injection h with h1
            injection h1 with h2 h3
            subst h2
            rfl
      · split at h
        · injection h with h1
          injection h1 with h2 h3
          subst h2
          rfl
        · split at h
          · exact (updateToolSelectionView_err _ _ _ _ _ h).trans rfl
          · exact (updateResourceListView_err _ _ _ _ h).trans rfl
          · exact (updatePromptListView_err _ _ _ _ h).trans rfl
          · exact (updateArgumentInputView_err _ _ _ _ _ h).trans rfl
          · injection h with h1
            injection h1 with h2 h3
            subst h2
            rfl
    | down =>
      simp only [Update] at h
      split at h
      · split at h
        · injection h with h1
          injection h1 with h2 h3
          subst h2
          rfl
        · split at h
          · exact (updateToolSelectionView_err _ _ _ _ _ h).trans rfl
          · exact (updateResourceListView_err _ _ _ _ h).trans rfl
          · exact (updatePromptListView_err _ _ _ _ h).trans rfl
          · exact (updateArgumentInputView_err _ _ _ _ _ h).trans rfl
          · injection h with h1
            injection h1 with h2 h3
            subst h2
            rfl
      · split at h
        · injection h with h1
          injection h1 with h2 h3
          subst h2
          rfl
        · split at h
          · exact (updateToolSelectionView_err _ _ _ _ _ h).trans rfl
          · exact (updateResourceListView_err _ _ _ _ h).trans rfl
          · exact (updatePromptListView_err _ _ _ _ h).trans rfl
          · exact (updateArgumentInputView_err _ _ _ _ _ h).trans rfl
          · injection h with h1
            injection h1 with h2 h3
            subst h2
            rfl
    | char c =>
      simp only [Update] at h
      split at h
      · split at h
        · injection h with h1
          injection h1 with h2 h3
          subst h2
          rfl
        · split at h
          · exact (updateToolSelectionView_err _ _ _ _ _ h).trans rfl
          · exact (updateResourceListView_err _ _ _ _ h).trans rfl
          · exact (updatePromptListView_err _ _ _ _ h).trans rfl
          · exact (updateArgumentInputView_err _ _ _ _ _ h).trans rfl
          · injection h with h1
            injection h1 with h2 h3
            subst h2
            rfl
      · split at h
        · injection h with h1
          injection h1 with h2 h3
          subst h2
          rfl
        · split at h
          · exact (updateToolSelectionView_err _ _ _ _ _ h).trans rfl
          · exact (updateResourceListView_err _ _ _ _ h).trans rfl
          · exact (updatePromptListView_err _ _ _ _ h).trans rfl
          · exact (updateArgumentInputView_err _ _ _ _ _ h).trans rfl
          · injection h with h1
            injection h1 with h2 h3
            subst h2
            rfl

/-- Once the error field is set, it stays set along any run. -/
theorem run_err_persists (verbose : Bool) (msgs : List Msg) :
    ∀ (m m' : AppModel), run verbose m msgs = some m' →
      (∃ e, m.err = some e) → ∃ e', m'.err = some e' := by
  induction msgs with
  | nil =>
    intro m m' h he
    simp only [run, Option.some.injEq] at h
    subst h
    exact he
  | cons msg msgs ih =>
    intro m m' h he
    simp only [run] at h
    split at h
    · exact Option.noConfusion h
    · rename_i m₁ p heq
      rcases Update_err_persists verbose m msg _ _ heq with h1 | h1
      · exact ih _ _ h (h1 ▸ he)
      · exact ih _ _ h h1

theorem updateArgumentInputView_argOrder (verbose : Bool) (m : AppModel) (k : Key)
    (m' : AppModel) (cs : List Cmd)
    (h : updateArgumentInputView verbose m k = some (m', cs)) :
    m'.argOrder = m.argOrder ∧ m'.argInputs.length = m.argInputs.length := by
  simp only [updateArgumentInputView] at h
  repeat' split at h
  all_goals
    first
    | exact Option.noConfusion h
    | (injection h with h1; injection h1 with h2 h3; subst h2;
       constructor <;> first | rfl | simp)

/-- While the argument-entry view is active, no step changes the field
order or the number of fields. -/
theorem Update_argOrder_stable (verbose : Bool) (m : AppModel) (msg : Msg)
    (m' : AppModel) (cs : List Cmd)
    (hstate : m.state = viewState.argumentInputView)
    (h : Update verbose m msg = some (m', cs)) :
    m'.argOrder = m.argOrder ∧ m'.argInputs.length = m.argInputs.length := by
  cases msg with
  | windowSize w hh =>
    injection h with h1
    injection h1 with h2 h3
    subst h2
    exact ⟨rfl, rfl⟩
  | toolResult res e =>
    cases e with
    | none =>
      simp only [Update] at h
      injection h with h1
      injection h1 with h2 h3
      subst h2
      cases verbose <;> exact ⟨rfl, rfl⟩
    | some e =>
      simp only [Update] at h
      injection h with h1
      injection h1 with h2 h3
      subst h2
      exact ⟨rfl, rfl⟩
  | resourceResult res e =>
    cases e with
    | none =>
      simp only [Update] at h
      injection h with h1
      injection h1 with h2 h3
      subst h2
      cases verbose <;> exact ⟨rfl, rfl⟩
    | some e =>
      simp only [Update] at h
      injection h with h1
      injection h1 with h2 h3
      subst h2
      exact ⟨rfl, rfl⟩
  | key k =>
    cases k with
    | tab =>
      simp only [Update] at h
      injection h with h1
      injection h1 with h2 h3
      subst h2
      cases verbose <;> exact ⟨rfl, rfl⟩
    | esc =>
      simp only [Update] at h
      injection h with h1
      injection h1 with h2 h3
      subst h2
      cases verbose <;> exact ⟨rfl, rfl⟩
    | ctrlC =>
      simp only [Update] at h
      injection h with h1
      injection h1 with h2 h3
      subst h2
      cases verbose <;> exact ⟨rfl, rfl⟩
    | enter =>
      simp only [Update] at h
      split at h <;>
        (split at h
         · injection h with h1
           injection h1 with h2 h3
           subst h2
           exact ⟨rfl, rfl⟩
         · split at h
           all_goals rename_i heq
           · exact absurd heq (by simp [logf_state, hstate])
           · exact absurd heq (by simp [logf_state, hstate])
           · exact absurd heq (by simp [logf_state, hstate])
           · exact (updateArgumentInputView_argOrder _ _ _ _ _ h).imp
               (fun a => a.trans rfl) (fun a => a.trans rfl)
           · exact absurd heq (by simp [logf_state, hstate]))
    | up =>
      simp only [Update] at h
      split at h <;>
        (split at h
         · injection h with h1
           injection h1 with h2 h3
           subst h2
           exact ⟨rfl, rfl⟩
         · split at h
           all_goals rename_i heq
           · exact absurd heq (by simp [logf_state, hstate])
           · exact absurd heq (by simp [logf_state, hstate])
           · exact absurd heq (by simp [logf_state, hstate])
           · exact (updateArgumentInputView_argOrder _ _ _ _ _ h).imp
               (fun a => a.trans rfl) (fun a => a.trans rfl)
           · exact absurd heq (by simp [logf_state, hstate]))
    | down =>
      simp only [Update] at h
      split at h <;>
        (split at h
         · injection h with h1
           injection h1 with h2 h3
           subst h2
           exact ⟨rfl, rfl⟩
         · split at h
           all_goals rename_i heq
           · exact absurd heq (by simp [logf_state, hstate])
           · exact absurd heq (by simp [logf_state, hstate])
           · exact absurd heq (by simp [logf_state, hstate])
           · exact (updateArgumentInputView_argOrder _ _ _ _ _ h).imp
               (fun a => a.trans rfl) (fun a => a.trans rfl)
           · exact absurd heq (by simp [logf_state, hstate]))
    | char c =>
      simp only [Update] at h
      split at h <;>
        (split at h
         · injection h with h1
           injection h1 with h2 h3
           subst h2
           exact ⟨rfl, rfl⟩
         · split at h
           all_goals rename_i heq
           · exact absurd heq (by simp [logf_state, hstate])
           · exact absurd heq (by simp [logf_state, hstate])
           · exact absurd heq (by simp [logf_state, hstate])
           · exact (updateArgumentInputView_argOrder _ _ _ _ _ h).imp
               (fun a => a.trans rfl) (fun a => a.trans rfl)
           · exact absurd heq (by simp [logf_state, hstate]))


/-! ### Claim theorems -/

/-- C7: from every state, the global-cancel key (Esc) moves ResourceDetail
to the resource-browsing view and every other state to the tool-browsing
view, emitting no command. -/
theorem C7_global_cancel (verbose : Bool) (m : AppModel) :
    (Update verbose m (Msg.key Key.esc)).map (fun p => (p.1.state, p.2)) =
      some ((if m.state = viewState.resourceDetailView then viewState.resourceListView
             else viewState.toolSelectionView), ([] : List Cmd)) := by
  cases verbose <;> rfl

/-- C3: evaluating the dispatch-time coercion at the failing input.  A
number- or integer-typed field with empty text is omitted from the argument
mapping entirely (the `continue` in `callToolCmd` skips the map insertion),
instead of mapping to 0.0 / 0 as the claim states; a non-empty unparsable
input is included as the raw string with a coercion warning logged, and the
dispatched job still proceeds. -/
theorem C3_empty_numeric_omitted :
    buildArgs (some { properties := [("n", numProp)] }) ["n"] [inputWith ""] =
      some ([], []) ∧
    buildArgs (some { properties := [("n", intProp)] }) ["n"] [inputWith ""] =
      some ([], []) ∧
    callToolJob (some oneTool) ["z"] [inputWith ""] = some ("one", [], []) ∧
    buildArgs (some { properties := [("n", numProp)] }) ["n"] [inputWith "abc"] =
      some ([("n", JsonValue.str "abc")], ["Error converting arg 'n' to number"]) ∧
    buildArgs (some { properties := [("n", intProp)] }) ["n"] [inputWith "abc"] =
      some ([("n", JsonValue.str "abc")], ["Error converting arg 'n' to integer"]) ∧
    buildArgs (some { properties := [("n", intProp)] }) ["n"] [inputWith "42"] =
      some ([("n", JsonValue.int 42)], []) := by
  refine ⟨?_, ?_, ?_, ?_, ?_, ?_⟩ <;> decide

/-- C6: evaluating the boolean coercion at the failing input.  A
boolean-typed field with empty text is omitted from the argument mapping
(the `continue` skips the insertion) instead of being included as `false`;
`strconv.ParseBool` accepts only its twelve fixed spellings, so "TRUE"
parses but "tRue" does not — the latter logs a warning and the call
proceeds with the raw string. -/
theorem C6_empty_boolean_omitted :
    buildArgs (some { properties := [("b", boolProp)] }) ["b"] [inputWith ""] =
      some ([], []) ∧
    buildArgs (some { properties := [("b", boolProp)] }) ["b"] [inputWith "TRUE"] =
      some ([("b", JsonValue.bool true)], []) ∧
    buildArgs (some { properties := [("b", boolProp)] }) ["b"] [inputWith "false"] =
      some ([("b", JsonValue.bool false)], []) ∧
    buildArgs (some { properties := [("b", boolProp)] }) ["b"] [inputWith "tRue"] =
      some ([("b", JsonValue.str "tRue")], ["Error converting arg 'b' to boolean"]) := by
  refine ⟨?_, ?_, ?_, ?_⟩ <;> decide

/-- C4: immediately after selecting a two-parameter tool, both built fields
have their focus flag set (the build loop calls `Focus()` on every input
before `argInputs[0].Focus()`), violating the claimed at-most-one-focused
invariant. -/
theorem C4_all_fields_focused :
    (run false (initialModel [addTool] [] []) [Msg.key Key.enter]).map
      (fun m => (m.state, m.argInputs.map TextInput.focused, focusedCount m.argInputs)) =
    some (viewState.argumentInputView, [true, true], 2) := by
  decide

/-- C10: the focus index is not reset when a new form is built.  After
advancing to the second field of a two-parameter form, cancelling, and
selecting a one-parameter tool, the controller is in the argument-entry
view with `argFocus = 1` but only one field; the next text key indexes the
field slice out of range (a Go run-time panic, modeled as `none`). -/
theorem C10_focus_index_out_of_range :
    (run false (initialModel [addTool, oneTool] [] [])
      [Msg.key Key.enter, Msg.key Key.enter, Msg.key Key.esc, Msg.key Key.down,
       Msg.key Key.enter]).map
      (fun m => (m.state, m.panelFocus, m.argFocus, m.argInputs.length)) =
      some (viewState.argumentInputView, focusedPanel.mainPanelFocus, 1, 1) ∧
    run false (initialModel [addTool, oneTool] [] [])
      [Msg.key Key.enter, Msg.key Key.enter, Msg.key Key.esc, Msg.key Key.down,
       Msg.key Key.enter, Msg.key (Key.char 'x')] = none := by
  exact ⟨by decide, by decide⟩

/-- C1, counterexample to "then move to ResultDisplay": selecting the
zero-parameter tool and receiving the outcome leaves the controller in the
tool-selection view; the state never changes to any result view (no such
state exists), the outcome is only stored in the result field. -/
theorem C1_counterexample :
    (run false (initialModel [pingTool] [] []) [Msg.key Key.enter]).map
      (fun m => m.state) = some viewState.toolSelectionView ∧
    (run false (initialModel [pingTool] [] [])
      [Msg.key Key.enter, Msg.toolResult "pong" none]).map
      (fun m => (m.state, m.result)) = some (viewState.toolSelectionView, "pong") := by
  exact ⟨by decide, by decide⟩

/-- C2, counterexample: a resource read resolving with a transport error
sets the model error field; the state field still reads ResourceDetail but
the rendered frame is the global error screen, not the resource-detail view
(the resource-result field is untouched), and after a further key press the
frame is still the error screen — the session is not visibly interactive
any more. -/
theorem C2_counterexample :
    (run false (initialModel [] [sampleResource] [])
      [Msg.key (Key.char 'r'), Msg.key Key.enter,
       Msg.resourceResult "" (some "connection refused")]).map
      (fun m => (m.state, m.err, m.resourceResult, View m)) =
      some (viewState.resourceDetailView, some "connection refused", "",
            some "Error: connection refused\n\nPress ctrl+c to quit.") ∧
    (run false (initialModel [] [sampleResource] [])
      [Msg.key (Key.char 'r'), Msg.key Key.enter,
       Msg.resourceResult "" (some "connection refused"), Msg.key Key.esc]).map
      (fun m => View m) =
      some (some "Error: connection refused\n\nPress ctrl+c to quit.") := by
  exact ⟨by decide, by decide⟩

/-- C5, counterexample: with the debug panel focused and the controller in
ResourceDetail, the Esc input changes the active view state to the resource
list — the global bindings run before the focus check, so input while
FocusTarget=DebugPane is not confined to the diagnostic pane's scroll. -/
theorem C5_counterexample :
    (run false (initialModel [] [sampleResource] [])
      [Msg.key (Key.char 'r'), Msg.key Key.enter, Msg.key Key.tab]).map
      (fun m => (m.state, m.panelFocus)) =
      some (viewState.resourceDetailView, focusedPanel.debugPanelFocus) ∧
    (run false (initialModel [] [sampleResource] [])
      [Msg.key (Key.char 'r'), Msg.key Key.enter, Msg.key Key.tab, Msg.key Key.esc]).map
      (fun m => (m.state, m.panelFocus)) =
      some (viewState.resourceListView, focusedPanel.debugPanelFocus) := by
  exact ⟨by decide, by decide⟩

/-- C9, counterexample: with verbose logging on, two focus toggles restore
the focus target but append two key-press lines to the transcript, so the
rest of the controller state is not unchanged. -/
theorem C9_counterexample :
    (run true (initialModel [] [] []) [Msg.key Key.tab, Msg.key Key.tab]).map
      (fun m => (m.panelFocus, m.log)) =
      some (focusedPanel.mainPanelFocus, ["Key pressed: tab", "Key pressed: tab"]) ∧
    (initialModel [] [] []).log = [] := by
  exact ⟨by decide, rfl⟩

/-- Two focus toggles with verbose logging off are a no-op on the whole
model. -/
theorem tab_twice (m : AppModel) (msgs : List Msg) :
    run false m (Msg.key Key.tab :: Msg.key Key.tab :: msgs) = run false m msgs := by
  cases m with
  | mk st pf tl rl pl ai ao af sT ts rs ps sR r rr e lg w hh dv =>
    cases pf <;> rfl

/-- Any number of focus toggles leaves the view state unchanged. -/
theorem run_tabs_state (verbose : Bool) :
    ∀ (k : Nat) (m m' : AppModel),
      run verbose m (List.replicate k (Msg.key Key.tab)) = some m' →
      m'.state = m.state := by
  intro k
  induction k with
  | zero =>
    intro m m' h
    injection h with h1
    rw [← h1]
  | succ k ih =>
    intro m m' h
    rw [List.replicate_succ] at h
    simp only [run] at h
    split at h
    · exact Option.noConfusion h
    · rename_i m₁ cs heq
      have hst : m₁.state = m.state := by
        cases verbose <;>
          (simp only [Update] at heq; injection heq with h1; injection h1 with h2 h3;
           exact (congrArg AppModel.state h2.symm).trans rfl)
      exact (ih _ _ h).trans hst

/-- C9 (amended): with verbose logging off, an even number of focus toggles
restores the entire model, the FocusTarget included; for any verbosity, any
number of toggles never changes the ViewState at any point.  (With verbose
logging on, each toggle also appends a key-press line to the diagnostic
transcript — see the counterexample.) -/
theorem C9_toggle_focus (verbose : Bool) (m : AppModel) (n k : Nat) :
    run false m (List.replicate (2 * n) (Msg.key Key.tab)) = some m ∧
    (∀ m' : AppModel, run verbose m (List.replicate k (Msg.key Key.tab)) = some m' →
      m'.state = m.state) := by
  constructor
  · induction n generalizing m with
    | zero => rfl
    | succ j ih =>
      rw [show 2 * (j + 1) = 2 * j + 1 + 1 from by omega,
          List.replicate_succ, List.replicate_succ, tab_twice]
      exact ih m
  · intro m' h
    exact run_tabs_state verbose k m m' h

/-- Witness for C9 at a concrete model and toggle counts. -/
theorem C9_toggle_focus_witness :
    run false (initialModel [] [] []) (List.replicate (2 * 2) (Msg.key Key.tab)) =
      some (initialModel [] [] []) ∧
    ∃ m' : AppModel,
      run true (initialModel [] [] []) (List.replicate 3 (Msg.key Key.tab)) = some m' ∧
      m'.state = (initialModel [] [] []).state := by
  refine ⟨(C9_toggle_focus false (initialModel [] [] []) 2 3).1, ?_⟩
  have h := (C9_toggle_focus true (initialModel [] [] []) 2 3).2
  refine ⟨_, rfl, h _ rfl⟩

/-- C5 (amended): while the debug panel is focused, every key other than
the global bindings (Tab, Esc, Ctrl+C) leaves the entire controller state
unchanged except the diagnostic pane: with verbose logging off the only
change is the debug viewport's scroll, and in general the view state, the
lists, the form state, the selections, the results and the error field are
all untouched.  (The global bindings act regardless of focus — see the
counterexample.) -/
theorem C5_debug_focus_routing (verbose : Bool) (m : AppModel) (k : Key)
    (hfocus : m.panelFocus = focusedPanel.debugPanelFocus)
    (hk : k ≠ Key.tab ∧ k ≠ Key.esc ∧ k ≠ Key.ctrlC) :
    ∃ m' : AppModel,
      Update verbose m (Msg.key k) = some (m', []) ∧
      m'.state = m.state ∧
      m'.panelFocus = m.panelFocus ∧
      m'.toolList = m.toolList ∧
      m'.resourceList = m.resourceList ∧
      m'.promptList = m.promptList ∧
      m'.argInputs = m.argInputs ∧
      m'.argOrder = m.argOrder ∧
      m'.argFocus = m.argFocus ∧
      m'.selectedTool = m.selectedTool ∧
      m'.selectedResource = m.selectedResource ∧
      m'.result = m.result ∧
      m'.resourceResult = m.resourceResult ∧
      m'.err = m.err ∧
      (verbose = false → m' = { m with debugViewport := m.debugViewport.update k }) := by
  obtain ⟨h1, h2, h3⟩ := hk
  cases k with
  | tab => exact absurd rfl h1
  | esc => exact absurd rfl h2
  | ctrlC => exact absurd rfl h3
  | enter =>
      cases verbose with
      | false =>
        refine ⟨{ m with debugViewport := m.debugViewport.update (Key.enter) },
          ?_, rfl, rfl, rfl, rfl, rfl, rfl, rfl, rfl, rfl, rfl, rfl, rfl, rfl, fun _ => rfl⟩
        simp [Update, hfocus]
      | true =>
        refine ⟨{ m.logf ("Key pressed: " ++ keyString (Key.enter)) with
                  debugViewport :=
                    (m.logf ("Key pressed: " ++ keyString (Key.enter))).debugViewport.update
                      (Key.enter) },
          ?_, rfl, rfl, rfl, rfl, rfl, rfl, rfl, rfl, rfl, rfl, rfl, rfl, rfl, fun hv => Bool.noConfusion hv⟩
        simp [Update, logf_panelFocus, hfocus]
  | up =>
      cases verbose with
      | false =>
        refine ⟨{ m with debugViewport := m.debugViewport.update (Key.up) },
          ?_, rfl, rfl, rfl, rfl, rfl, rfl, rfl, rfl, rfl, rfl, rfl, rfl, rfl, fun _ => rfl⟩
        simp [Update, hfocus]
      | true =>
        refine ⟨{ m.logf ("Key pressed: " ++ keyString (Key.up)) with
                  debugViewport :=
                    (m.logf ("Key pressed: " ++ keyString (Key.up))).debugViewport.update
                      (Key.up) },
          ?_, rfl, rfl, rfl, rfl, rfl, rfl, rfl, rfl, rfl, rfl, rfl, rfl, rfl, fun hv => Bool.noConfusion hv⟩
        simp [Update, logf_panelFocus, hfocus]
  | down =>
      cases verbose with
      | false =>
        refine ⟨{ m with debugViewport := m.debugViewport.update (Key.down) },
          ?_, rfl, rfl, rfl, rfl, rfl, rfl, rfl, rfl, rfl, rfl, rfl, rfl, rfl, fun _ => rfl⟩
        simp [Update, hfocus]
      | true =>
        refine ⟨{ m.logf ("Key pressed: " ++ keyString (Key.down)) with
                  debugViewport :=
                    (m.logf ("Key pressed: " ++ keyString (Key.down))).debugViewport.update
                      (Key.down) },
          ?_, rfl, rfl, rfl, rfl, rfl, rfl, rfl, rfl, rfl, rfl, rfl, rfl, rfl, fun hv => Bool.noConfusion hv⟩
        simp [Update, logf_panelFocus, hfocus]
  | char c =>
      cases verbose with
      | false =>
        refine ⟨{ m with debugViewport := m.debugViewport.update (Key.char c) },
          ?_, rfl, rfl, rfl, rfl, rfl, rfl, rfl, rfl, rfl, rfl, rfl, rfl, rfl, fun _ => rfl⟩
        simp [Update, hfocus]
      | true =>
        refine ⟨{ m.logf ("Key pressed: " ++ keyString (Key.char c)) with
                  debugViewport :=
                    (m.logf ("Key pressed: " ++ keyString (Key.char c))).debugViewport.update
                      (Key.char c) },
          ?_, rfl, rfl, rfl, rfl, rfl, rfl, rfl, rfl, rfl, rfl, rfl, rfl, rfl, fun hv => Bool.noConfusion hv⟩
        simp [Update, logf_panelFocus, hfocus]

/-- Witness for C5 at a concrete debug-focused model and a text key. -/
theorem C5_debug_focus_routing_witness :
    ({ initialModel [] [] [] with panelFocus := focusedPanel.debugPanelFocus
        : AppModel }).panelFocus = focusedPanel.debugPanelFocus ∧
    ∃ m' : AppModel,
      Update false { initialModel [] [] [] with panelFocus := focusedPanel.debugPanelFocus }
          (Msg.key (Key.char 'q')) = some (m', []) ∧
      m'.state = ({ initialModel [] [] [] with
        panelFocus := focusedPanel.debugPanelFocus : AppModel }).state ∧
      m'.panelFocus = focusedPanel.debugPanelFocus := by
  refine ⟨rfl, ?_⟩
  obtain ⟨m', hu, hs, hp, -⟩ :=
    C5_debug_focus_routing false
      { initialModel [] [] [] with panelFocus := focusedPanel.debugPanelFocus }
      (Key.char 'q') rfl ⟨by decide, by decide, by decide⟩
  exact ⟨m', hu, hs, hp⟩

/-- C2 (amended): an invoke/read job resolving with a transport error never
terminates the process (no quit command) and leaves the state field in
ResourceDetail, but the error is not rendered as a result: the result
fields are untouched, the error is stored in the model's error field, and
the renderer short-circuits on it — this frame and every frame reachable
afterwards is the global error screen with a quit prompt, because no step
ever clears the error field. -/
theorem C2_transport_error_fatal (verbose : Bool) (m : AppModel) (res e : String)
    (hstate : m.state = viewState.resourceDetailView) :
    ∃ m' : AppModel,
      Update verbose m (Msg.resourceResult res (some e)) = some (m', []) ∧
      m'.state = viewState.resourceDetailView ∧
      m'.resourceResult = m.resourceResult ∧
      m'.result = m.result ∧
      m'.err = some e ∧
      View m' = some (errorScreen e) ∧
      ∀ (msgs : List Msg) (m₂ : AppModel), run verbose m' msgs = some m₂ →
        ∃ e₂, m₂.err = some e₂ ∧ View m₂ = some (errorScreen e₂) := by
  refine ⟨{ m with err := some e }, rfl, hstate, rfl, rfl, rfl, rfl, ?_⟩
  intro msgs m₂ h
  obtain ⟨e₂, he₂⟩ := run_err_persists verbose msgs _ m₂ h ⟨e, rfl⟩
  exact ⟨e₂, he₂, by simp [View, he₂]⟩

/-- Witness for C2 at a concrete session with one resource. -/
theorem C2_transport_error_fatal_witness :
    (run false (initialModel [] [sampleResource] [])
      [Msg.key (Key.char 'r'), Msg.key Key.enter]).map (fun mm => mm.state) =
      some viewState.resourceDetailView ∧
    ((run false (initialModel [] [sampleResource] [])
      [Msg.key (Key.char 'r'), Msg.key Key.enter]).bind (fun mm =>
        Update false mm (Msg.resourceResult "" (some "connection refused")))).map
      (fun p => (p.1.state, p.1.err, View p.1, p.2)) =
      some (viewState.resourceDetailView, some "connection refused",
            some (errorScreen "connection refused"), []) := by
  constructor
  · decide
  · cases hD : run false (initialModel [] [sampleResource] [])
      [Msg.key (Key.char 'r'), Msg.key Key.enter] with
    | none => exact absurd hD (by decide)
    | some mD =>
      have hDs : mD.state = viewState.resourceDetailView := by
        have h1 : (some mD).map (fun mm => mm.state) =
            some viewState.resourceDetailView := by
          rw [← hD]; decide
        exact Option.some.inj h1
      obtain ⟨m', hu, hs, -, -, he, hv, -⟩ :=
        C2_transport_error_fatal false mD "" "connection refused" hDs
      simp [hu, hs, he, hv]

/-- C1 (amended): selecting an operation with an empty parameter schema
dispatches the call command immediately, without constructing any field
sequence (argInputs and argOrder are untouched), and the controller stays
in the tool-browsing view both until and after the outcome arrives — the
outcome is stored in the result field with no view change (the code has no
result-display state). -/
theorem C1_zero_param_dispatch (verbose : Bool) (m : AppModel) (tool : Tool)
    (hstate : m.state = viewState.toolSelectionView)
    (hfocus : m.panelFocus = focusedPanel.mainPanelFocus)
    (hsel : m.toolList.selectedItem = some tool)
    (hzero : hasNoParams tool = true) :
    ∃ m' : AppModel,
      Update verbose m (Msg.key Key.enter) =
        some (m', [Cmd.callTool (some tool) m.argOrder m.argInputs]) ∧
      m'.state = viewState.toolSelectionView ∧
      m'.argInputs = m.argInputs ∧
      m'.argOrder = m.argOrder ∧
      m'.selectedTool = some tool ∧
      ∀ res : String, ∃ m₂ : AppModel,
        Update verbose m' (Msg.toolResult res none) = some (m₂, []) ∧
        m₂.state = m'.state ∧ m₂.result = res := by
  have hupd : m.toolList.update Key.enter = m.toolList := rfl
  have hres : ∀ (mm : AppModel) (res : String), ∃ m₂ : AppModel,
      Update verbose mm (Msg.toolResult res none) = some (m₂, []) ∧
      m₂.state = mm.state ∧ m₂.result = res := by
    intro mm res
    cases verbose with
    | false => exact ⟨_, rfl, rfl, rfl⟩
    | true => exact ⟨_, rfl, rfl, rfl⟩
  rcases tool with ⟨tname, tdesc, tschema⟩
  cases tschema with
  | none =>
    cases verbose with
    | false =>
      refine ⟨{ m with toolList := m.toolList.update Key.enter,
                       selectedTool := some ⟨tname, tdesc, none⟩ },
        ?_, hstate, rfl, rfl, rfl, hres _⟩
      simp [Update, updateToolSelectionView, callTool, keyString, hupd, hsel, hfocus, hstate]
    | true =>
      refine ⟨({ m.logf ("Key pressed: " ++ keyString Key.enter) with
                 toolList := m.toolList.update Key.enter,
                 selectedTool := some ⟨tname, tdesc, none⟩ }).logf
                   "No arguments needed, calling tool directly",
        ?_, hstate, rfl, rfl, rfl, hres _⟩
      simp [Update, updateToolSelectionView, callTool, AppModel.logf, keyString,
            logf_panelFocus, logf_state, logf_toolList, hupd, hsel, hfocus, hstate]
  | some sch =>
    obtain ⟨props⟩ := sch
    have hemp : props = [] := by
      simpa [hasNoParams, List.isEmpty_iff] using hzero
    subst hemp
    cases verbose with
    | false =>
      refine ⟨{ m with toolList := m.toolList.update Key.enter,
                       selectedTool := some ⟨tname, tdesc, some ⟨[]⟩⟩ },
        ?_, hstate, rfl, rfl, rfl, hres _⟩
      simp [Update, updateToolSelectionView, callTool, keyString, hupd, hsel, hfocus, hstate]
    | true =>
      refine ⟨({ m.logf ("Key pressed: " ++ keyString Key.enter) with
                 toolList := m.toolList.update Key.enter,
                 selectedTool := some ⟨tname, tdesc, some ⟨[]⟩⟩ }).logf
                   "No arguments needed, calling tool directly",
        ?_, hstate, rfl, rfl, rfl, hres _⟩
      simp [Update, updateToolSelectionView, callTool, AppModel.logf, keyString,
            logf_panelFocus, logf_state, logf_toolList, hupd, hsel, hfocus, hstate]

/-- Witness for C1: a fresh session with the zero-parameter tool. -/
theorem C1_zero_param_dispatch_witness :
    (initialModel [pingTool] [] []).toolList.selectedItem = some pingTool ∧
    hasNoParams pingTool = true ∧
    ∃ m' : AppModel,
      Update false (initialModel [pingTool] [] []) (Msg.key Key.enter) =
        some (m', [Cmd.callTool (some pingTool)
                    (initialModel [pingTool] [] []).argOrder
                    (initialModel [pingTool] [] []).argInputs]) ∧
      m'.state = viewState.toolSelectionView ∧
      m'.argInputs = (initialModel [pingTool] [] []).argInputs ∧
      m'.argOrder = (initialModel [pingTool] [] []).argOrder ∧
      m'.selectedTool = some pingTool ∧
      ∀ res : String, ∃ m₂ : AppModel,
        Update false m' (Msg.toolResult res none) = some (m₂, []) ∧
        m₂.state = m'.state ∧ m₂.result = res :=
  ⟨rfl, rfl,
    C1_zero_param_dispatch false (initialModel [pingTool] [] []) pingTool
      rfl rfl rfl rfl⟩

theorem focusFirst_length (l : List TextInput) : (focusFirst l).length = l.length := by
  cases l <;> rfl

/-- C8: selecting an operation with N ≥ 1 parameters builds a field
sequence of length N whose order is the lexicographic sort of the
parameter names — the same for any permutation of the declared order — and
both the order and the field count are unchanged by every further step
taken while the argument-entry view is active. -/
theorem C8_field_sequence (verbose : Bool) (m : AppModel) (tool : Tool) (sch : Schema)
    (hstate : m.state = viewState.toolSelectionView)
    (hfocus : m.panelFocus = focusedPanel.mainPanelFocus)
    (hsel : m.toolList.selectedItem = some tool)
    (hsch : tool.inputSchema = some sch)
    (hne : sch.properties ≠ []) :
    ∃ m' : AppModel,
      Update verbose m (Msg.key Key.enter) = some (m', []) ∧
      m'.state = viewState.argumentInputView ∧
      m'.argOrder = sortStrings (sch.properties.map Prod.fst) ∧
      m'.argOrder.length = sch.properties.length ∧
      m'.argInputs.length = sch.properties.length ∧
      List.Sorted (fun a b => strLE a b = true) m'.argOrder ∧
      (∀ sch₂ : Schema,
        (sch₂.properties.map Prod.fst).Perm (sch.properties.map Prod.fst) →
        sortStrings (sch₂.properties.map Prod.fst) = m'.argOrder) ∧
      (∀ (m₁ : AppModel) (msg : Msg) (m₂ : AppModel) (cs : List Cmd),
        m₁.state = viewState.argumentInputView →
        Update verbose m₁ msg = some (m₂, cs) →
        m₂.argOrder = m₁.argOrder ∧ m₂.argInputs.length = m₁.argInputs.length) := by
  have hupd : m.toolList.update Key.enter = m.toolList := rfl
  have hpos : 0 < sch.properties.length := List.length_pos.mpr hne
  rcases tool with ⟨tname, tdesc, tschema⟩
  have hsch2 : tschema = some sch := hsch
  subst hsch2
  cases verbose with
  | false =>
    refine ⟨{ m with
        toolList := m.toolList.update Key.enter,
        selectedTool := some ⟨tname, tdesc, some sch⟩,
        state := viewState.argumentInputView,
        argOrder := sortStrings (sch.properties.map Prod.fst),
        argInputs := focusFirst ((sortStrings (sch.properties.map Prod.fst)).map
          (fun name =>
            ({ placeholder :=
                 ((sch.properties.lookup name).getD
                   { type := "", description := "" }).description,
               value := "", focused := true } : TextInput))) },
      ?_, rfl, rfl, ?_, ?_, sortStrings_sorted _,
      fun sch₂ hp => sortStrings_eq_of_perm hp,
      fun m₁ msg m₂ cs hs hu => Update_argOrder_stable false m₁ msg m₂ cs hs hu⟩
    · simp [Update, updateToolSelectionView, keyString, hupd, hsel, hfocus, hstate, hpos]
    · rw [sortStrings_length, List.length_map]
    · rw [focusFirst_length, List.length_map, sortStrings_length, List.length_map]
  | true =>
    refine ⟨{ ({ m.logf ("Key pressed: " ++ keyString Key.enter) with
        toolList := m.toolList.update Key.enter,
        selectedTool := some ⟨tname, tdesc, some sch⟩ }).logf
          "State change: toolSelectionView -> argumentInputView" with
        state := viewState.argumentInputView,
        argOrder := sortStrings (sch.properties.map Prod.fst),
        argInputs := focusFirst ((sortStrings (sch.properties.map Prod.fst)).map
          (fun name =>
            ({ placeholder :=
                 ((sch.properties.lookup name).getD
                   { type := "", description := "" }).description,
               value := "", focused := true } : TextInput))) },
      ?_, rfl, rfl, ?_, ?_, sortStrings_sorted _,
      fun sch₂ hp => sortStrings_eq_of_perm hp,
      fun m₁ msg m₂ cs hs hu => Update_argOrder_stable true m₁ msg m₂ cs hs hu⟩
    · simp [Update, updateToolSelectionView, AppModel.logf, keyString,
            logf_panelFocus, logf_state, logf_toolList, hupd, hsel, hfocus, hstate, hpos]
    · rw [sortStrings_length, List.length_map]
    · rw [focusFirst_length, List.length_map, sortStrings_length, List.length_map]

/-- Witness for C8: a fresh session selecting the two-parameter tool whose
schema declares the names out of lexicographic order. -/
theorem C8_field_sequence_witness :
    (initialModel [addTool] [] []).toolList.selectedItem = some addTool ∧
    addTool.inputSchema = some { properties := [("b", numProp), ("a", numProp)] } ∧
    ∃ m' : AppModel,
      Update false (initialModel [addTool] [] []) (Msg.key Key.enter) = some (m', []) ∧
      m'.state = viewState.argumentInputView ∧
      m'.argOrder = sortStrings ([("b", numProp), ("a", numProp)].map Prod.fst) ∧
      m'.argOrder.length = 2 ∧
      m'.argInputs.length = 2 ∧
      List.Sorted (fun a b => strLE a b = true) m'.argOrder := by
  refine ⟨rfl, rfl, ?_⟩
  obtain ⟨m', hu, hs, ho, hl1, hl2, hsort, -, -⟩ :=
    C8_field_sequence false (initialModel [addTool] [] []) addTool
      { properties := [("b", numProp), ("a", numProp)] } rfl rfl rfl rfl (by decide)
  exact ⟨m', hu, hs, ho, hl1, hl2, hsort⟩

end McpCli
